import Mathlib

/-!
# nitaisearch: bookmark printer and interactive shell

A shallow embedding of `bookmark.go`.  Standard output is modelled as the list of
strings written by the successive `fmt.Printf` / `fmt.Println` / `fmt.Print` calls,
each string exactly as written (a line carries its terminating `"\n"`).
The operating system (GOOS, home directory, directory listing, file contents),
`filepath.Join` and `json.Unmarshal` are parameters collected in `Env`.
The library routines the program calls on its input line (`bufio.Reader.ReadString`,
`strings.TrimSpace`, `fmt.Sscanf` with the verb `%d`, `strings.HasPrefix`) are
modelled after the Go standard library.
-/

namespace NitaiSearch

/-! ## Data model (bookmark.go, lines 14-26) -/

/-- Go `type Bookmark struct { Name, URL string; Children []Bookmark }`. -/
inductive Bookmark where
  | mk (Name : String) (URL : String) (Children : List Bookmark)

/-- Field `Name`. -/
def Bookmark.Name : Bookmark → String
  | .mk n _ _ => n

/-- Field `URL`. -/
def Bookmark.URL : Bookmark → String
  | .mk _ u _ => u

/-- Field `Children`. -/
def Bookmark.Children : Bookmark → List Bookmark
  | .mk _ _ cs => cs

/-- The anonymous struct under `Roots` of `ChromeBookmarksRoot`. -/
structure Roots where
  BookmarkBar : Bookmark
  Other : Bookmark
  Synced : Bookmark

/-- Go `type ChromeBookmarksRoot struct { Roots struct { ... } }`. -/
structure ChromeBookmarksRoot where
  Roots : Roots

/-! ## printBookmarks (lines 28-35) -/

mutual
/-- Translation of `printBookmarks(b, prefix)`: the strings written to standard output,
in order.  The `if` writes `prefix + Name + " -> " + URL + "\n"`; the `for` loop over
`b.Children` is `printChildren`. -/
def printBookmarks : Bookmark → String → List String
  | .mk name url children, pre =>
    (if url ≠ "" then [pre ++ name ++ " -> " ++ url ++ "\n"] else [])
      ++ printChildren children pre
/-- The loop `for _, child := range b.Children { printBookmarks(child, prefix+"  ") }`
run on the remaining children. -/
def printChildren : List Bookmark → String → List String
  | [], _ => []
  | child :: rest, pre => printBookmarks child (pre ++ "  ") ++ printChildren rest pre
end

/-! ## Library routines used on the input line -/

/-- Unicode white space (`unicode.IsSpace`, and the `space` table of `fmt/scan.go`). -/
def isSpace (c : Char) : Bool :=
  let n := c.toNat
  (9 ≤ n && n ≤ 13) || n = 0x20 || n = 0x85 || n = 0xA0 || n = 0x1680 ||
  (0x2000 ≤ n && n ≤ 0x200A) || n = 0x2028 || n = 0x2029 || n = 0x202F ||
  n = 0x205F || n = 0x3000

/-- Go `strings.TrimSpace`: leading and trailing white space removed. -/
def TrimSpace (s : String) : String :=
  String.mk (((s.data.dropWhile isSpace).reverse.dropWhile isSpace).reverse)

/-- Go `(*bufio.Reader).ReadString('\n')` on the unread input: the text up to and
including the first newline (everything that is left when there is none), and the
input that stays unread.  The error result is dropped, as `main` drops it. -/
def ReadString : List Char → List Char × List Char
  | [] => ([], [])
  | c :: cs =>
    if c = '\n' then ([c], cs)
    else ((ReadString cs).1.cons c, (ReadString cs).2)

/-- Go `int` is 32 or 64 bits wide, depending on the platform. -/
inductive IntSize where
  | bits32
  | bits64
  deriving DecidableEq, Repr

/-- Width in bits. -/
def IntSize.bits : IntSize → Nat
  | .bits32 => 32
  | .bits64 => 64

/-- The value `i` is representable as a signed integer of `n` bits. -/
def fitsInt (n : Nat) (i : Int) : Bool :=
  decide (-(2 : Int) ^ (n - 1) ≤ i) && decide (i < (2 : Int) ^ (n - 1))

/-- The scanner method `SkipSpace` of `fmt/scan.go` for `Sscanf` (newlines are not
spaces): `none` is the error "unexpected newline". -/
def skipSpace : List Char → Option (List Char)
  | [] => some []
  | r :: rest =>
    if r = '\r' ∧ rest.head? = some '\n' then skipSpace rest
    else if r = '\n' then none
    else if !isSpace r then some (r :: rest)
    else skipSpace rest

/-- Value of a run of decimal digits. -/
def digitsValue (ds : List Char) : Nat :=
  ds.foldl (fun acc d => 10 * acc + (d.toNat - 48)) 0

/-- The constant `hugeWid = 1 << 30` of `fmt/scan.go`: without a width in the format,
the scanner reads no rune past this count. -/
def hugeWid : Nat := 1 <<< 30

/-- The scanner method `scanInt` of `fmt/scan.go` for the verb `%d`: skip spaces, fail
at end of input, accept one optional sign, require a digit and take the longest run of
digits, convert with `strconv.ParseInt(tok, 10, 64)` and check the width of `int`.
`none` is a scan error.  What follows the digits stays unread and is no error. -/
def scanInt (sz : IntSize) (input : List Char) : Option Int :=
  match skipSpace (input.take hugeWid) with
  | none => none
  | some [] => none
  | some (c :: cs) =>
    let rest := if c = '+' ∨ c = '-' then cs else c :: cs
    let digits := rest.takeWhile Char.isDigit
    if digits = [] then none
    else
      let i : Int := if c = '-' then -(digitsValue digits : Int) else (digitsValue digits : Int)
      if fitsInt 64 i && fitsInt sz.bits i then some i else none

/-- Go `fmt.Sscanf(str, "%d", &v)` with the returned count and error ignored: the new
value of `v`, which keeps its old value `old` when the scan fails. -/
def Sscanf (sz : IntSize) (str : String) (old : Int) : Int :=
  (scanInt sz str.data).getD old

/-- Go `strings.HasPrefix(s, prefix)`. -/
def HasPrefix (s pre : String) : Bool :=
  pre.data.isPrefixOf s.data

/-- Go slice indexing `xs[i]` with an `int` index: `none` is the run-time panic
"index out of range". -/
def index (xs : List String) (i : Int) : Option String :=
  if 0 ≤ i ∧ i < (xs.length : Int) then xs[i.toNat]? else none

/-! ## Environment and observable events -/

/-- The `os.FileInfo` of one directory entry, as far as the program looks at it. -/
structure DirEntry where
  Name : String
  IsDir : Bool
  deriving DecidableEq, Repr

/-- A result of a Go call that returns `(value, error)` where the program uses the
value only when the error is `nil`. -/
inductive Result (α : Type) where
  | ok (v : α)
  | err (msg : String)
  deriving DecidableEq, Repr

/-- Everything the program obtains from its platform. -/
structure Env where
  /-- Constant `runtime.GOOS`. -/
  GOOS : String
  /-- Width of `int`. -/
  IntSize : IntSize
  /-- Both results of `os.UserHomeDir()`: the directory and the error (`none` is `nil`). -/
  UserHomeDir : String × Option String
  /-- Go `filepath.Join` applied to its arguments. -/
  Join : List String → String
  /-- Go `ioutil.ReadDir`. -/
  ReadDir : String → Result (List DirEntry)
  /-- Go `ioutil.ReadFile`. -/
  ReadFile : String → Result String
  /-- Go `json.Unmarshal(data, &root)` on a zero `root`. -/
  Unmarshal : String → Result ChromeBookmarksRoot

/-- What a run does that can be observed from outside. -/
inductive Event where
  /-- One write to standard output. -/
  | stdout (s : String)
  /-- A call of `ioutil.ReadDir` on a path. -/
  | readDir (path : String)
  /-- A call of `ioutil.ReadFile` on a path. -/
  | readFile (path : String)
  /-- The run-time panic of a slice index out of range. -/
  | indexOutOfRange
  deriving DecidableEq, Repr

/-! ## getBrowserProfiles (lines 37-82) -/

/-- Lines 38-68 of `getBrowserProfiles`: the data root `base` of a browser.  The error
of `os.UserHomeDir()` is discarded (`home, _ :=`); a platform or browser without a
case leaves `base` at its zero value `""`. -/
def profilesBase (env : Env) (browser : String) : String :=
  let home := env.UserHomeDir.1
  match env.GOOS with
  | "windows" =>
    match browser with
    | "chrome" => env.Join [home, "AppData", "Local", "Google", "Chrome", "User Data"]
    | "edge" => env.Join [home, "AppData", "Local", "Microsoft", "Edge", "User Data"]
    | "brave" => env.Join [home, "AppData", "Local", "BraveSoftware", "Brave-Browser", "User Data"]
    | _ => ""
  | "darwin" =>
    match browser with
    | "chrome" => env.Join [home, "Library", "Application Support", "Google", "Chrome"]
    | "edge" => env.Join [home, "Library", "Application Support", "Microsoft Edge"]
    | "brave" => env.Join [home, "Library", "Application Support", "BraveSoftware", "Brave-Browser"]
    | _ => ""
  | "linux" =>
    match browser with
    | "chrome" => env.Join [home, ".config", "google-chrome"]
    | "edge" => env.Join [home, ".config", "microsoft-edge"]
    | "brave" => env.Join [home, ".config", "BraveSoftware", "Brave-Browser"]
    | _ => ""
  | _ => ""

/-- Lines 75-80: the loop over `dirs` that appends to `profiles`. -/
def collectProfiles : List DirEntry → List String → List String
  | [], profiles => profiles
  | d :: rest, profiles =>
    if d.IsDir && (d.Name == "Default" || HasPrefix d.Name "Profile") then
      collectProfiles rest (profiles ++ [d.Name])
    else collectProfiles rest profiles

/-- Translation of `getBrowserProfiles(browser)`: the events of the call and its
result `(profiles, err)`. -/
def getBrowserProfiles (env : Env) (browser : String) : List Event × Result (List String) :=
  let base := profilesBase env browser
  ([Event.readDir base],
    match env.ReadDir base with
    | .err e => .err e
    | .ok dirs => .ok (collectProfiles dirs []))

/-! ## main (lines 84-153) -/

/-- The loops `for i, x := range xs { fmt.Printf("%d) %s\n", i+1, x) }` of lines 87-89
and 110-112, from position `i` on. -/
def printMenu : List String → Nat → List Event
  | [], _ => []
  | x :: rest, i => Event.stdout (toString (i + 1) ++ ") " ++ x ++ "\n") :: printMenu rest (i + 1)

/-- Lines 94-96 and 115-117: trim the line read, then scan it with `%d` into a
variable initialised to `0`. -/
def parseChoice (sz : IntSize) (line : List Char) : Int :=
  Sscanf sz (TrimSpace (String.mk line)) 0

/-- Lines 124-133: the path of the bookmarks file.  It takes no browser: the three
cases are the Chrome directories. -/
def bookmarkPath (env : Env) (profile : String) : String :=
  let home := env.UserHomeDir.1
  match env.GOOS with
  | "windows" =>
    env.Join [home, "AppData", "Local", "Google", "Chrome", "User Data", profile, "Bookmarks"]
  | "darwin" =>
    env.Join [home, "Library", "Application Support", "Google", "Chrome", profile, "Bookmarks"]
  | "linux" => env.Join [home, ".config", "google-chrome", profile, "Bookmarks"]
  | _ => ""

/-- Lines 147-152: the three sections. -/
def printSections (root : ChromeBookmarksRoot) : List Event :=
  [Event.stdout "=== Bookmark Bar ===\n"]
    ++ (printBookmarks root.Roots.BookmarkBar "").map Event.stdout
    ++ [Event.stdout "\n=== Other Bookmarks ===\n"]
    ++ (printBookmarks root.Roots.Other "").map Event.stdout
    ++ [Event.stdout "\n=== Synced Bookmarks ===\n"]
    ++ (printBookmarks root.Roots.Synced "").map Event.stdout

/-- Lines 124-152 of `main`, once `profile` is selected. -/
def loadAndPrint (env : Env) (profile : String) : List Event :=
  Event.readFile (bookmarkPath env profile) ::
    match env.ReadFile (bookmarkPath env profile) with
    | .err e => [Event.stdout ("Error reading bookmarks: " ++ e ++ "\n")]
    | .ok data =>
      match env.Unmarshal data with
      | .err e => [Event.stdout ("Error parsing JSON: " ++ e ++ "\n")]
      | .ok root => printSections root

/-- Lines 109-113 of `main`: what the profile prompt writes before it reads. -/
def profilePrompt (profiles : List String) : List Event :=
  [Event.stdout "Select profile:\n"] ++ printMenu profiles 0
    ++ [Event.stdout "Enter choice (number): "]

/-- Lines 109-123 of `main`: the profile prompt on a profile list, with `input` the
unread standard input. -/
def promptProfile (env : Env) (profiles : List String) (input : List Char) : List Event :=
  profilePrompt profiles ++
    (let profileChoice := parseChoice env.IntSize (ReadString input).1
     if profileChoice < 1 ∨ profileChoice > (profiles.length : Int) then
       [Event.stdout "Invalid choice\n"]
     else
       match index profiles (profileChoice - 1) with
       | none => [Event.indexOutOfRange]
       | some profile => loadAndPrint env profile)

/-- Lines 103-123 of `main`, once `browser` is selected. -/
def chooseProfile (env : Env) (browser : String) (input : List Char) : List Event :=
  (getBrowserProfiles env browser).1 ++
    match (getBrowserProfiles env browser).2 with
    | .err _ => [Event.stdout "Cannot find any profiles\n"]
    | .ok profiles =>
      if profiles.length = 0 then [Event.stdout "Cannot find any profiles\n"]
      else promptProfile env profiles input

/-- The list `browsers` of line 85. -/
def browsers : List String := ["chrome", "edge", "brave"]

/-- Lines 86-92: the browser menu and its prompt. -/
def browserPrompt : List Event :=
  [Event.stdout "Select browser:\n"] ++ printMenu browsers 0
    ++ [Event.stdout "Enter choice (number): "]

/-- Translation of `main`: the events of a run on standard input `stdin`. -/
def main (env : Env) (stdin : String) : List Event :=
  browserPrompt ++
    (let choice := parseChoice env.IntSize (ReadString stdin.data).1
     if choice < 1 ∨ choice > (browsers.length : Int) then
       [Event.stdout "Invalid choice\n"]
     else
       match index browsers (choice - 1) with
       | none => [Event.indexOutOfRange]
       | some browser => chooseProfile env browser (ReadString stdin.data).2)

/-! ## Definitions used to state the properties -/

/-- Two spaces repeated `d` times. -/
def indent (d : Nat) : String :=
  String.join (List.replicate d "  ")

mutual
/-- The nodes of a tree in depth-first pre-order, each with its depth, the root being
at depth `d`. -/
def nodesPreorder : Bookmark → Nat → List (Nat × Bookmark)
  | .mk name url children, d => (d, .mk name url children) :: nodesPreorderList children (d + 1)
/-- Pre-order of a sequence of sibling trees, all at depth `d`. -/
def nodesPreorderList : List Bookmark → Nat → List (Nat × Bookmark)
  | [], _ => []
  | child :: rest, d => nodesPreorder child d ++ nodesPreorderList rest d
end

/-- The line of a node at depth `d`: indent, then `<name> -> <url>`, then the newline. -/
def lineOf (x : Nat × Bookmark) : String :=
  indent x.1 ++ x.2.Name ++ " -> " ++ x.2.URL ++ "\n"

/-- The node carries a URL. -/
def hasURL (x : Nat × Bookmark) : Bool :=
  decide (x.2.URL ≠ "")

mutual
/-- Every node of the tree has an empty URL. -/
def allFolders : Bookmark → Bool
  | .mk _ url children => decide (url = "") && allFoldersList children
/-- Every node of every tree of the sequence has an empty URL. -/
def allFoldersList : List Bookmark → Bool
  | [] => true
  | child :: rest => allFolders child && allFoldersList rest
end

/-- The bookmark-bar root of the end-to-end example. -/
def exampleBar : Bookmark :=
  .mk "Bar" "" [.mk "Site" "http://x.test" []]

/-- The decoded document of the end-to-end example. -/
def exampleDocument : ChromeBookmarksRoot :=
  ⟨⟨exampleBar, .mk "Other" "" [], .mk "Synced" "" []⟩⟩

/-- A tree with a URL on an inner node: a bookmark with two children, the second a
folder holding one bookmark. -/
def exampleTree : Bookmark :=
  .mk "A" "http://a.test" [.mk "B" "http://b.test" [], .mk "F" "" [.mk "C" "http://c.test" []]]

/-- A tree of folders only. -/
def exampleFolders : Bookmark :=
  .mk "Top" "" [.mk "Left" "" [], .mk "Right" "" [.mk "Deep" "" []]]

/-- The text is a decimal integer: an optional sign and then digits only, at least
one. -/
def isDecimalInteger (s : String) : Bool :=
  match s.data with
  | [] => false
  | c :: cs =>
    let ds := if c = '+' ∨ c = '-' then cs else c :: cs
    !ds.isEmpty && ds.all Char.isDigit

/-- The text starts with a decimal integer: an optional sign and then a digit. -/
def startsWithInteger (s : String) : Bool :=
  match s.data with
  | [] => false
  | c :: cs =>
    match (if c = '+' ∨ c = '-' then cs else c :: cs) with
    | [] => false
    | d :: _ => d.isDigit

/-- The test of line 77 on a directory entry. -/
def isProfileDir (d : DirEntry) : Bool :=
  d.IsDir && (d.Name == "Default" || HasPrefix d.Name "Profile")

/-- The paths of the `ioutil.ReadFile` calls of a run, in order. -/
def readFilePaths : List Event → List String
  | [] => []
  | Event.readFile p :: rest => p :: readFilePaths rest
  | _ :: rest => readFilePaths rest

/-- The directory listing of the example: five entries, all directories except
`file.txt`. -/
def exampleListing : List DirEntry :=
  [⟨"Default", true⟩, ⟨"Profile 1", true⟩, ⟨"Guest Profile", true⟩, ⟨"System Profile", true⟩,
   ⟨"file.txt", false⟩]

/-- A stand-in for `filepath.Join` on a platform with separator `/`, for elements that
need no cleaning: the non-empty elements joined by the separator. -/
def joinSlash (xs : List String) : String :=
  "/".intercalate (xs.filter (fun x => x ≠ ""))

/-- A Linux machine with home `/home/u`, where Edge has the example listing as its data
root and Chrome's profile `Profile 1` holds the example document. -/
def sampleEnv : Env where
  GOOS := "linux"
  IntSize := IntSize.bits64
  UserHomeDir := ("/home/u", none)
  Join := joinSlash
  ReadDir := fun p =>
    if p = "/home/u/.config/microsoft-edge" then Result.ok exampleListing
    else Result.err "no such file or directory"
  ReadFile := fun p =>
    if p = "/home/u/.config/google-chrome/Profile 1/Bookmarks" then Result.ok "doc"
    else Result.err "no such file or directory"
  Unmarshal := fun d =>
    if d = "doc" then Result.ok exampleDocument else Result.err "invalid character"

/-- A Linux machine on which `os.UserHomeDir()` fails (it returns `""` and an error),
run in a directory that holds `.config/google-chrome/Default/Bookmarks`. -/
def homelessEnv : Env where
  GOOS := "linux"
  IntSize := IntSize.bits64
  UserHomeDir := ("", some "$HOME is not defined")
  Join := joinSlash
  ReadDir := fun p =>
    if p = ".config/google-chrome" then Result.ok [⟨"Default", true⟩]
    else Result.err "no such file or directory"
  ReadFile := fun p =>
    if p = ".config/google-chrome/Default/Bookmarks" then Result.ok "doc"
    else Result.err "no such file or directory"
  Unmarshal := fun d =>
    if d = "doc" then Result.ok exampleDocument else Result.err "invalid character"

/-- The environment with the error result of `os.UserHomeDir()` replaced. -/
def Env.withHomeError (env : Env) (e : Option String) : Env :=
  { env with UserHomeDir := (env.UserHomeDir.1, e) }

/-! ## The printer -/

theorem printChildren_eq_flatten (cs : List Bookmark) (p : String) :
    printChildren cs p = (cs.map (fun c => printBookmarks c (p ++ "  "))).flatten := by
  induction cs with
  | nil => simp [printChildren]
  | cons c rest ih => simp [printChildren, ih]

theorem printBookmarks_eq (b : Bookmark) (p : String) :
    printBookmarks b p
      = (if b.URL ≠ "" then [p ++ b.Name ++ " -> " ++ b.URL ++ "\n"] else [])
        ++ (b.Children.map (fun child => printBookmarks child (p ++ "  "))).flatten := by
  cases b with
  | mk name url children =>
    simp only [printBookmarks, Bookmark.URL, Bookmark.Name, Bookmark.Children,
      printChildren_eq_flatten]

/-- C1: the lines written by `printBookmarks b p` are the line
`p ++ Name ++ " -> " ++ URL` (newline-terminated) when the URL is non-empty and
nothing otherwise, followed by the lines of `printBookmarks child (p ++ "  ")` for the
children in `Children` order, whether or not the node wrote a line. -/
theorem printBookmarks_preorder (b : Bookmark) (p : String) :
    printBookmarks b p
      = (if b.URL ≠ "" then [p ++ b.Name ++ " -> " ++ b.URL ++ "\n"] else [])
        ++ (b.Children.map (fun child => printBookmarks child (p ++ "  "))).flatten :=
  printBookmarks_eq b p

theorem indent_succ (d : Nat) : indent (d + 1) = indent d ++ "  " := by
  unfold indent String.join
  rw [List.replicate_succ', List.foldl_append]
  rfl

mutual
theorem printBookmarks_indent (b : Bookmark) (d : Nat) :
    printBookmarks b (indent d) = ((nodesPreorder b d).filter hasURL).map lineOf := by
  cases b with
  | mk name url children =>
    rw [printBookmarks, nodesPreorder, printChildren_indent children d]
    by_cases h : url = ""
    · simp [List.filter_cons, hasURL, Bookmark.URL, h]
    · simp [List.filter_cons, hasURL, Bookmark.URL, Bookmark.Name, lineOf, h]
theorem printChildren_indent (cs : List Bookmark) (d : Nat) :
    printChildren cs (indent d) = ((nodesPreorderList cs (d + 1)).filter hasURL).map lineOf := by
  cases cs with
  | nil => simp [printChildren, nodesPreorderList]
  | cons c rest =>
    rw [printChildren, nodesPreorderList, ← indent_succ, printBookmarks_indent c (d + 1),
      printChildren_indent rest d]
    simp
end

/-- C2: printed from the empty prefix, the output is the pre-order list of the nodes
with a non-empty URL, exactly one line per such node, the line of a node at depth `d`
(the root at depth 0) being two spaces repeated `d` times followed by `<name> -> <url>`.
On the example tree the bookmarks at depths 0, 1 and 2 are indented by 0, 2 and 4
spaces. -/
theorem printBookmarks_lines (b : Bookmark) :
    printBookmarks b ""
      = ((nodesPreorder b 0).filter (fun x => decide (x.2.URL ≠ ""))).map
          (fun x => indent x.1 ++ x.2.Name ++ " -> " ++ x.2.URL ++ "\n")
    ∧ (printBookmarks b "").length
        = (nodesPreorder b 0).countP (fun x => decide (x.2.URL ≠ ""))
    ∧ printBookmarks exampleTree ""
        = ["A -> http://a.test\n", "  B -> http://b.test\n", "    C -> http://c.test\n"] := by
  have h : printBookmarks b "" = ((nodesPreorder b 0).filter hasURL).map lineOf :=
    printBookmarks_indent b 0
  refine ⟨h, ?_, by decide⟩
  rw [h, List.length_map, List.countP_eq_length_filter]
  rfl

mutual
theorem allFolders_silent (b : Bookmark) (p : String) (h : allFolders b = true) :
    printBookmarks b p = [] := by
  cases b with
  | mk name url children =>
    simp only [allFolders, Bool.and_eq_true, decide_eq_true_eq] at h
    rw [printBookmarks, allFoldersList_silent children p h.2]
    simp [h.1]
theorem allFoldersList_silent (cs : List Bookmark) (p : String) (h : allFoldersList cs = true) :
    printChildren cs p = [] := by
  cases cs with
  | nil => simp [printChildren]
  | cons c rest =>
    simp only [allFoldersList, Bool.and_eq_true] at h
    rw [printChildren, allFolders_silent c (p ++ "  ") h.1, allFoldersList_silent rest p h.2]
    rfl
end

/-- C3: a node with an empty URL writes no line of its own, its output is the output of
its children only; a tree whose nodes all have an empty URL, in particular a folder
without children, writes nothing, for any prefix. -/
theorem printBookmarks_folder (b : Bookmark) (p : String) (h : b.URL = "") :
    printBookmarks b p = (b.Children.map (fun child => printBookmarks child (p ++ "  "))).flatten
    ∧ (allFolders b = true → printBookmarks b p = [])
    ∧ (b.Children = [] → printBookmarks b p = []) := by
  have h1 := printBookmarks_eq b p
  simp only [h, ne_eq, not_true_eq_false, if_false, List.nil_append] at h1
  refine ⟨h1, allFolders_silent b p, fun hc => ?_⟩
  rw [h1, hc]
  rfl

theorem printBookmarks_folder_witness :
    exampleFolders.URL = ""
    ∧ printBookmarks exampleFolders ">"
        = (exampleFolders.Children.map (fun child => printBookmarks child (">" ++ "  "))).flatten
    ∧ (allFolders exampleFolders = true → printBookmarks exampleFolders ">" = [])
    ∧ (exampleFolders.Children = [] → printBookmarks exampleFolders ">" = []) :=
  ⟨by decide, printBookmarks_folder exampleFolders ">" (by decide)⟩

/-- C4, as stated, fails: the bookmark-bar section of the example document is not the
unindented line `Site -> http://x.test`. -/
theorem exampleBar_not_unindented :
    printBookmarks exampleDocument.Roots.BookmarkBar "" ≠ ["Site -> http://x.test\n"] := by
  decide

/-- C4, amended: printing the bookmark-bar section of the example document writes
exactly one line, `Site -> http://x.test` indented by two spaces (the bookmark lies at
depth 1 under the unprinted folder "Bar"), and the three sections of `main` are the
three headers with that single line after the first. -/
theorem exampleBar_output :
    printBookmarks exampleDocument.Roots.BookmarkBar "" = ["  Site -> http://x.test\n"]
    ∧ printSections exampleDocument
        = [Event.stdout "=== Bookmark Bar ===\n", Event.stdout "  Site -> http://x.test\n",
           Event.stdout "\n=== Other Bookmarks ===\n", Event.stdout "\n=== Synced Bookmarks ===\n"] := by
  decide

/-! ## The profile enumerator -/

theorem collectProfiles_eq (dirs : List DirEntry) (acc : List String) :
    collectProfiles dirs acc = acc ++ (dirs.filter isProfileDir).map DirEntry.Name := by
  induction dirs generalizing acc with
  | nil => simp [collectProfiles]
  | cons d rest ih =>
    by_cases h : isProfileDir d = true
    · have h2 := h
      unfold isProfileDir at h2
      simp [collectProfiles, h2, ih, List.filter_cons, h]
    · have h2 := h
      unfold isProfileDir at h2
      simp [collectProfiles, h2, ih, List.filter_cons, h]

theorem HasPrefix_iff (s pre : String) : HasPrefix s pre = true ↔ ∃ t : String, s = pre ++ t := by
  unfold HasPrefix
  rw [List.isPrefixOf_iff_prefix]
  constructor
  · rintro ⟨t, ht⟩
    exact ⟨String.mk t, String.ext (by simp [String.data_append, ht])⟩
  · rintro ⟨t, rfl⟩
    exact ⟨t.data, by simp [String.data_append]⟩

theorem isProfileDir_iff (d : DirEntry) :
    isProfileDir d = true
      ↔ d.IsDir = true ∧ (d.Name = "Default" ∨ ∃ t : String, d.Name = "Profile" ++ t) := by
  unfold isProfileDir
  simp [HasPrefix_iff]

/-- C5: when the directory listing is read successfully, `getBrowserProfiles` returns,
in the listing's order, the names of the entries that are directories and are named
"Default" or have the literal prefix "Profile": a name is returned if and only if such
an entry has it.  On the example listing the result is "Default", "Profile 1". -/
theorem getBrowserProfiles_filter (env : Env) (browser : String) (dirs : List DirEntry)
    (h : env.ReadDir (profilesBase env browser) = Result.ok dirs) :
    ∃ profiles : List String,
      (getBrowserProfiles env browser).2 = Result.ok profiles
      ∧ profiles = (dirs.filter (fun d =>
          d.IsDir && (d.Name == "Default" || HasPrefix d.Name "Profile"))).map DirEntry.Name
      ∧ (∀ name : String, name ∈ profiles ↔
          ∃ d ∈ dirs, d.Name = name ∧ d.IsDir = true
            ∧ (name = "Default" ∨ ∃ t : String, name = "Profile" ++ t))
      ∧ (dirs = exampleListing → profiles = ["Default", "Profile 1"]) := by
  refine ⟨(dirs.filter isProfileDir).map DirEntry.Name, ?_, rfl, ?_, ?_⟩
  · simp [getBrowserProfiles, h, collectProfiles_eq]
  · intro name
    simp only [List.mem_map, List.mem_filter, isProfileDir_iff]
    constructor
    · rintro ⟨d, ⟨hd, hdir, hname⟩, rfl⟩
      exact ⟨d, hd, rfl, hdir, hname⟩
    · rintro ⟨d, hd, rfl, hdir, hname⟩
      exact ⟨d, ⟨hd, hdir, hname⟩, rfl⟩
  · rintro rfl
    decide

theorem getBrowserProfiles_filter_witness :
    sampleEnv.ReadDir (profilesBase sampleEnv "edge") = Result.ok exampleListing
    ∧ ∃ profiles : List String,
      (getBrowserProfiles sampleEnv "edge").2 = Result.ok profiles
      ∧ profiles = (exampleListing.filter (fun d =>
          d.IsDir && (d.Name == "Default" || HasPrefix d.Name "Profile"))).map DirEntry.Name
      ∧ (∀ name : String, name ∈ profiles ↔
          ∃ d ∈ exampleListing, d.Name = name ∧ d.IsDir = true
            ∧ (name = "Default" ∨ ∃ t : String, name = "Profile" ++ t))
      ∧ (exampleListing = exampleListing → profiles = ["Default", "Profile 1"]) :=
  ⟨by decide, getBrowserProfiles_filter sampleEnv "edge" exampleListing (by decide)⟩

/-! ## The choice prompts -/

theorem dropWhile_head_false {α : Type} (p : α → Bool) :
    ∀ (l : List α) (c : α) (cs : List α), l.dropWhile p = c :: cs → p c = false := by
  intro l
  induction l with
  | nil => intro c cs h; simp at h
  | cons a rest ih =>
    intro c cs h
    rw [List.dropWhile_cons] at h
    by_cases ha : p a = true
    · rw [if_pos ha] at h
      exact ih c cs h
    · rw [if_neg ha] at h
      have hac : a = c := (List.cons.inj h).1
      rw [← hac]
      simpa using ha

theorem TrimSpace_head (s : String) (c : Char) (cs : List Char)
    (h : (TrimSpace s).data = c :: cs) : isSpace c = false := by
  have hdef : (TrimSpace s).data = (s.data.dropWhile isSpace).rdropWhile isSpace := rfl
  rw [hdef] at h
  cases hl : s.data.dropWhile isSpace with
  | nil => rw [hl] at h; simp [List.rdropWhile] at h
  | cons a rest =>
    have ha : isSpace a = false := dropWhile_head_false isSpace s.data a rest hl
    have hpre : (a :: rest).rdropWhile isSpace <+: a :: rest := List.rdropWhile_prefix _ _
    rw [hl] at h
    rw [h] at hpre
    obtain ⟨t, ht⟩ := hpre
    have hca : c = a := (List.cons.inj ht).1
    rw [hca]
    exact ha

theorem skipSpace_of_not_space (c : Char) (cs : List Char) (h : isSpace c = false) :
    skipSpace (c :: cs) = some (c :: cs) := by
  have h1 : c ≠ '\r' := by
    rintro rfl
    exact absurd h (by decide)
  have h2 : c ≠ '\n' := by
    rintro rfl
    exact absurd h (by decide)
  simp [skipSpace, h1, h2, h]

theorem takeWhile_take_nil (l : List Char) (n : Nat)
    (h : (match l with
      | [] => false
      | d :: _ => d.isDigit) = false) :
    (l.take n).takeWhile Char.isDigit = [] := by
  cases l with
  | nil => simp
  | cons d ds =>
    cases n with
    | zero => simp
    | succ k =>
      simp only at h
      simp [List.takeWhile_cons, h]

theorem scanInt_trimmed_none (sz : IntSize) (s : String)
    (h : startsWithInteger (TrimSpace s) = false) : scanInt sz (TrimSpace s).data = none := by
  unfold startsWithInteger at h
  unfold scanInt
  cases hd : (TrimSpace s).data with
  | nil => simp [skipSpace]
  | cons c cs =>
    rw [hd] at h
    have hk : hugeWid = (hugeWid - 1) + 1 := by decide
    rw [hk, List.take_succ_cons, skipSpace_of_not_space c _ (TrimSpace_head s c cs hd)]
    simp only at h ⊢
    by_cases hs : c = '+' ∨ c = '-'
    · rw [if_pos hs] at h ⊢
      rw [takeWhile_take_nil cs _ h]
      simp
    · rw [if_neg hs] at h ⊢
      simp only at h
      simp [List.takeWhile_cons, h]

theorem parseChoice_of_not_integer (sz : IntSize) (line : List Char)
    (h : startsWithInteger (TrimSpace (String.mk line)) = false) : parseChoice sz line = 0 := by
  unfold parseChoice Sscanf
  rw [scanInt_trimmed_none sz _ h]
  rfl

theorem index_of_range (xs : List String) (c : Int) (h1 : 1 ≤ c) (h2 : c ≤ (xs.length : Int)) :
    ∃ x, index xs (c - 1) = some x := by
  have hlt : (c - 1).toNat < xs.length := by omega
  refine ⟨xs[(c - 1).toNat], ?_⟩
  unfold index
  rw [if_pos (by omega)]
  exact List.getElem?_eq_getElem hlt

theorem main_invalid (env : Env) (stdin : String)
    (h : parseChoice env.IntSize (ReadString stdin.data).1 < 1
        ∨ parseChoice env.IntSize (ReadString stdin.data).1 > 3) :
    main env stdin = browserPrompt ++ [Event.stdout "Invalid choice\n"] := by
  unfold main
  simp only [browsers, List.length_cons, List.length_nil]
  rw [if_pos (by simpa using h)]

theorem main_valid (env : Env) (stdin : String) (browser : String)
    (h1 : 1 ≤ parseChoice env.IntSize (ReadString stdin.data).1)
    (h3 : parseChoice env.IntSize (ReadString stdin.data).1 ≤ 3)
    (hb : index browsers (parseChoice env.IntSize (ReadString stdin.data).1 - 1) = some browser) :
    main env stdin = browserPrompt ++ chooseProfile env browser (ReadString stdin.data).2 := by
  unfold main
  simp only [hb]
  rw [if_neg]
  simp only [browsers, List.length_cons, List.length_nil]
  push_cast
  omega

theorem promptProfile_invalid (env : Env) (profiles : List String) (input : List Char)
    (h : parseChoice env.IntSize (ReadString input).1 < 1
        ∨ parseChoice env.IntSize (ReadString input).1 > (profiles.length : Int)) :
    promptProfile env profiles input = profilePrompt profiles ++ [Event.stdout "Invalid choice\n"] := by
  unfold promptProfile
  simp only
  rw [if_pos h]

theorem promptProfile_valid (env : Env) (profiles : List String) (input : List Char)
    (profile : String)
    (h1 : 1 ≤ parseChoice env.IntSize (ReadString input).1)
    (h2 : parseChoice env.IntSize (ReadString input).1 ≤ (profiles.length : Int))
    (hsel : index profiles (parseChoice env.IntSize (ReadString input).1 - 1) = some profile) :
    promptProfile env profiles input = profilePrompt profiles ++ loadAndPrint env profile := by
  unfold promptProfile
  simp only [hsel]
  rw [if_neg (by omega)]

theorem chooseProfile_found (env : Env) (browser : String) (profiles : List String)
    (input : List Char) (hp : (getBrowserProfiles env browser).2 = Result.ok profiles)
    (hne : profiles ≠ []) :
    chooseProfile env browser input
      = (getBrowserProfiles env browser).1 ++ promptProfile env profiles input := by
  unfold chooseProfile
  rw [hp]
  simp only
  rw [if_neg (by simpa using hne)]

/-- C6, as stated, fails: on the line `2abc` the trimmed text is not a decimal integer,
yet the run does not print "Invalid choice"; it selects the second browser and goes on to
the profile prompt. -/
theorem trailing_text_accepted :
    isDecimalInteger (TrimSpace (String.mk (ReadString ("2abc\n2\n" : String).data).1)) = false
    ∧ Event.stdout "Invalid choice\n" ∉ main sampleEnv "2abc\n2\n"
    ∧ main sampleEnv "2abc\n2\n"
        = browserPrompt ++ [Event.readDir "/home/u/.config/microsoft-edge"]
          ++ profilePrompt ["Default", "Profile 1"] ++ loadAndPrint sampleEnv "Profile 1" := by
  decide

/-- C6, amended: at the browser prompt (3 options) and at the profile prompt (as many
options as profiles), if the trimmed line does not start with a decimal integer (an
optional sign, then a digit), or the integer scanned from its start is below 1 or above
the number of options, the run writes "Invalid choice" and ends there: nothing follows
and no later step is taken. -/
theorem invalid_choice_aborts (env : Env) (stdin : String) :
    (startsWithInteger (TrimSpace (String.mk (ReadString stdin.data).1)) = false
        ∨ parseChoice env.IntSize (ReadString stdin.data).1 < 1
        ∨ parseChoice env.IntSize (ReadString stdin.data).1 > 3 →
      main env stdin = browserPrompt ++ [Event.stdout "Invalid choice\n"])
    ∧ (∀ (browser : String) (profiles : List String),
        1 ≤ parseChoice env.IntSize (ReadString stdin.data).1 →
        parseChoice env.IntSize (ReadString stdin.data).1 ≤ 3 →
        index browsers (parseChoice env.IntSize (ReadString stdin.data).1 - 1) = some browser →
        (getBrowserProfiles env browser).2 = Result.ok profiles →
        profiles ≠ [] →
        (startsWithInteger
              (TrimSpace (String.mk (ReadString (ReadString stdin.data).2).1)) = false
          ∨ parseChoice env.IntSize (ReadString (ReadString stdin.data).2).1 < 1
          ∨ parseChoice env.IntSize (ReadString (ReadString stdin.data).2).1
              > (profiles.length : Int)) →
        main env stdin
          = browserPrompt ++ (getBrowserProfiles env browser).1 ++ profilePrompt profiles
            ++ [Event.stdout "Invalid choice\n"]) := by
  constructor
  · intro h
    apply main_invalid
    rcases h with h | h | h
    · left
      rw [parseChoice_of_not_integer _ _ h]
      decide
    · exact Or.inl h
    · exact Or.inr h
  · intro browser profiles h1 h3 hb hp hne h
    rw [main_valid env stdin browser h1 h3 hb, chooseProfile_found env browser profiles _ hp hne,
      promptProfile_invalid, List.append_assoc, List.append_assoc]
    rcases h with h | h | h
    · left
      rw [parseChoice_of_not_integer _ _ h]
      decide
    · exact Or.inl h
    · exact Or.inr h

theorem invalid_choice_aborts_witness :
    main sampleEnv "abc\n" = browserPrompt ++ [Event.stdout "Invalid choice\n"]
    ∧ main sampleEnv "2\n3\n"
        = browserPrompt ++ (getBrowserProfiles sampleEnv "edge").1
          ++ profilePrompt ["Default", "Profile 1"] ++ [Event.stdout "Invalid choice\n"] :=
  ⟨(invalid_choice_aborts sampleEnv "abc\n").1 (by decide),
   (invalid_choice_aborts sampleEnv "2\n3\n").2 "edge" ["Default", "Profile 1"]
      (by decide) (by decide) (by decide) (by decide) (by decide) (by decide)⟩

theorem parseChoice_examples (sz : IntSize) :
    parseChoice sz (ReadString ("2" : String).data).1 = 2
    ∧ parseChoice sz (ReadString ("2\n" : String).data).1 = 2
    ∧ parseChoice sz (ReadString ("0" : String).data).1 = 0
    ∧ parseChoice sz (ReadString ("0\n" : String).data).1 = 0
    ∧ parseChoice sz (ReadString ("4" : String).data).1 = 4
    ∧ parseChoice sz (ReadString ("4\n" : String).data).1 = 4
    ∧ parseChoice sz (ReadString ("abc" : String).data).1 = 0
    ∧ parseChoice sz (ReadString ("abc\n" : String).data).1 = 0
    ∧ parseChoice sz (ReadString ("" : String).data).1 = 0
    ∧ parseChoice sz (ReadString ("\n" : String).data).1 = 0 := by
  cases sz <;> decide

/-- C7: with the three browsers as options, the input `2` passes the range check and
selects option number 2, the second browser; each of the inputs `0`, `4`, `abc` and the
empty input ends the run with "Invalid choice" (with or without the newline that ends
the line). -/
theorem choice_parsing_examples (env : Env) :
    index browsers (2 - 1) = some "edge"
    ∧ main env "2" = browserPrompt ++ chooseProfile env "edge" []
    ∧ main env "2\n" = browserPrompt ++ chooseProfile env "edge" []
    ∧ (∀ s ∈ ["0", "0\n", "4", "4\n", "abc", "abc\n", "", "\n"],
        main env s = browserPrompt ++ [Event.stdout "Invalid choice\n"]) := by
  obtain ⟨h2, h2n, h0, h0n, h4, h4n, ha, han, he, hen⟩ := parseChoice_examples env.IntSize
  refine ⟨by decide, ?_, ?_, ?_⟩
  · have h := main_valid env "2" "edge" (by rw [h2]; decide) (by rw [h2]; decide)
      (by rw [h2]; decide)
    rw [h]
    rfl
  · have h := main_valid env "2\n" "edge" (by rw [h2n]; decide) (by rw [h2n]; decide)
      (by rw [h2n]; decide)
    rw [h]
    rfl
  · intro s hs
    simp only [List.mem_cons, List.mem_singleton, List.not_mem_nil, or_false] at hs
    rcases hs with rfl | rfl | rfl | rfl | rfl | rfl | rfl | rfl
    · exact main_invalid env _ (by rw [h0]; decide)
    · exact main_invalid env _ (by rw [h0n]; decide)
    · exact main_invalid env _ (by rw [h4]; decide)
    · exact main_invalid env _ (by rw [h4n]; decide)
    · exact main_invalid env _ (by rw [ha]; decide)
    · exact main_invalid env _ (by rw [han]; decide)
    · exact main_invalid env _ (by rw [he]; decide)
    · exact main_invalid env _ (by rw [hen]; decide)

/-! ## Paths -/

theorem readFilePaths_append (a b : List Event) :
    readFilePaths (a ++ b) = readFilePaths a ++ readFilePaths b := by
  induction a with
  | nil => rfl
  | cons e rest ih => cases e <;> simp [readFilePaths, ih]

theorem readFilePaths_stdout (l : List String) : readFilePaths (l.map Event.stdout) = [] := by
  induction l with
  | nil => rfl
  | cons s rest ih => simpa [readFilePaths] using ih

theorem readFilePaths_printMenu (xs : List String) (i : Nat) :
    readFilePaths (printMenu xs i) = [] := by
  induction xs generalizing i with
  | nil => rfl
  | cons x rest ih => simpa [printMenu, readFilePaths] using ih (i + 1)

theorem readFilePaths_loadAndPrint (env : Env) (profile : String) :
    readFilePaths (loadAndPrint env profile) = [bookmarkPath env profile] := by
  unfold loadAndPrint
  split
  · simp [readFilePaths]
  · split
    · simp [readFilePaths]
    · simp [readFilePaths, printSections, readFilePaths_append, readFilePaths_stdout]

theorem main_run (env : Env) (stdin : String) (browser : String) (profiles : List String)
    (profile : String)
    (h1 : 1 ≤ parseChoice env.IntSize (ReadString stdin.data).1)
    (h3 : parseChoice env.IntSize (ReadString stdin.data).1 ≤ 3)
    (hb : index browsers (parseChoice env.IntSize (ReadString stdin.data).1 - 1) = some browser)
    (hp : (getBrowserProfiles env browser).2 = Result.ok profiles)
    (hne : profiles ≠ [])
    (h4 : 1 ≤ parseChoice env.IntSize (ReadString (ReadString stdin.data).2).1)
    (h5 : parseChoice env.IntSize (ReadString (ReadString stdin.data).2).1 ≤ (profiles.length : Int))
    (hsel : index profiles (parseChoice env.IntSize (ReadString (ReadString stdin.data).2).1 - 1)
      = some profile) :
    main env stdin
      = browserPrompt ++ (getBrowserProfiles env browser).1 ++ profilePrompt profiles
        ++ loadAndPrint env profile := by
  rw [main_valid env stdin browser h1 h3 hb, chooseProfile_found env browser profiles _ hp hne,
    promptProfile_valid env profiles _ profile h4 h5 hsel, List.append_assoc, List.append_assoc]

/-- C8: on windows, darwin and linux, whichever browser the first prompt selected and
whichever profile the second, the one file `main` reads is the Chrome path: the elements
of Chrome's data root for the platform, then the profile, then `Bookmarks`, joined by
`filepath.Join`.  The path depends on the platform, the home directory and the profile
only. -/
theorem bookmarks_path_is_chrome (env : Env) (stdin : String) (browser : String)
    (profiles : List String) (profile : String)
    (hos : env.GOOS = "windows" ∨ env.GOOS = "darwin" ∨ env.GOOS = "linux")
    (h1 : 1 ≤ parseChoice env.IntSize (ReadString stdin.data).1)
    (h3 : parseChoice env.IntSize (ReadString stdin.data).1 ≤ 3)
    (hb : index browsers (parseChoice env.IntSize (ReadString stdin.data).1 - 1) = some browser)
    (hp : (getBrowserProfiles env browser).2 = Result.ok profiles)
    (hne : profiles ≠ [])
    (h4 : 1 ≤ parseChoice env.IntSize (ReadString (ReadString stdin.data).2).1)
    (h5 : parseChoice env.IntSize (ReadString (ReadString stdin.data).2).1 ≤ (profiles.length : Int))
    (hsel : index profiles (parseChoice env.IntSize (ReadString (ReadString stdin.data).2).1 - 1)
      = some profile) :
    readFilePaths (main env stdin) = [bookmarkPath env profile]
    ∧ ∃ parts : List String,
        profilesBase env "chrome" = env.Join (env.UserHomeDir.1 :: parts)
        ∧ bookmarkPath env profile
            = env.Join (env.UserHomeDir.1 :: (parts ++ [profile, "Bookmarks"])) := by
  constructor
  · rw [main_run env stdin browser profiles profile h1 h3 hb hp hne h4 h5 hsel]
    have hb0 : readFilePaths browserPrompt = [] := by
      simp [browserPrompt, readFilePaths_append, readFilePaths_printMenu, readFilePaths]
    have hp0 : readFilePaths (profilePrompt profiles) = [] := by
      simp [profilePrompt, readFilePaths_append, readFilePaths_printMenu, readFilePaths]
    have hg0 : readFilePaths (getBrowserProfiles env browser).1 = [] := rfl
    rw [readFilePaths_append, readFilePaths_append, readFilePaths_append, hb0, hp0, hg0,
      readFilePaths_loadAndPrint]
    rfl
  · rcases hos with h | h | h
    · exact ⟨["AppData", "Local", "Google", "Chrome", "User Data"], by
        simp [profilesBase, bookmarkPath, h]⟩
    · exact ⟨["Library", "Application Support", "Google", "Chrome"], by
        simp [profilesBase, bookmarkPath, h]⟩
    · exact ⟨[".config", "google-chrome"], by
        simp [profilesBase, bookmarkPath, h]⟩

theorem bookmarks_path_is_chrome_witness :
    (sampleEnv.GOOS = "windows" ∨ sampleEnv.GOOS = "darwin" ∨ sampleEnv.GOOS = "linux")
    ∧ index browsers (parseChoice sampleEnv.IntSize (ReadString ("2\n2\n" : String).data).1 - 1)
        = some "edge"
    ∧ (getBrowserProfiles sampleEnv "edge").2 = Result.ok ["Default", "Profile 1"]
    ∧ index ["Default", "Profile 1"]
        (parseChoice sampleEnv.IntSize (ReadString (ReadString ("2\n2\n" : String).data).2).1 - 1)
        = some "Profile 1"
    ∧ readFilePaths (main sampleEnv "2\n2\n") = [bookmarkPath sampleEnv "Profile 1"]
    ∧ ∃ parts : List String,
        profilesBase sampleEnv "chrome" = sampleEnv.Join (sampleEnv.UserHomeDir.1 :: parts)
        ∧ bookmarkPath sampleEnv "Profile 1"
            = sampleEnv.Join (sampleEnv.UserHomeDir.1 :: (parts ++ ["Profile 1", "Bookmarks"])) :=
  ⟨by decide, by decide, by decide, by decide,
   bookmarks_path_is_chrome sampleEnv "2\n2\n" "edge" ["Default", "Profile 1"] "Profile 1"
     (by decide) (by decide) (by decide) (by decide) (by decide) (by decide) (by decide)
     (by decide) (by decide)⟩

/-- C9, as stated, fails: with `os.UserHomeDir()` failing, `getBrowserProfiles` returns
no error but the profiles found under the path built from the empty home, and `main`
goes on to read the bookmarks file at the path built from the empty home. -/
theorem home_failure_not_propagated :
    homelessEnv.UserHomeDir = ("", some "$HOME is not defined")
    ∧ getBrowserProfiles homelessEnv "chrome"
        = ([Event.readDir ".config/google-chrome"], Result.ok ["Default"])
    ∧ main homelessEnv "1\n1\n"
        = browserPrompt ++ [Event.readDir ".config/google-chrome"] ++ profilePrompt ["Default"]
          ++ [Event.readFile ".config/google-chrome/Default/Bookmarks"]
          ++ printSections exampleDocument := by
  decide

/-- C9, amended: the error of `os.UserHomeDir()` is discarded.  `getBrowserProfiles` and
`main` behave the same whatever that error is; paths are built from the returned home
string, and `getBrowserProfiles` returns an error exactly when reading the directory at
the path so built fails, with that error. -/
theorem home_error_discarded (env : Env) (e : Option String) (browser : String)
    (stdin : String) :
    getBrowserProfiles (env.withHomeError e) browser = getBrowserProfiles env browser
    ∧ main (env.withHomeError e) stdin = main env stdin
    ∧ (getBrowserProfiles env browser).1 = [Event.readDir (profilesBase env browser)]
    ∧ (∀ msg : String, (getBrowserProfiles env browser).2 = Result.err msg
        ↔ env.ReadDir (profilesBase env browser) = Result.err msg) := by
  refine ⟨rfl, rfl, rfl, fun msg => ?_⟩
  unfold getBrowserProfiles
  cases h : env.ReadDir (profilesBase env browser) with
  | err m => simp [h]
  | ok dirs => simp [h]

/-! ## Indexing -/

theorem printMenu_no_panic (xs : List String) (i : Nat) :
    Event.indexOutOfRange ∉ printMenu xs i := by
  induction xs generalizing i with
  | nil => simp [printMenu]
  | cons x rest ih => simp [printMenu, ih (i + 1)]

theorem loadAndPrint_no_panic (env : Env) (profile : String) :
    Event.indexOutOfRange ∉ loadAndPrint env profile := by
  unfold loadAndPrint
  split
  · simp
  · split
    · simp
    · simp [printSections]

theorem promptProfile_no_panic (env : Env) (profiles : List String) (input : List Char) :
    Event.indexOutOfRange ∉ promptProfile env profiles input := by
  by_cases h : parseChoice env.IntSize (ReadString input).1 < 1
      ∨ parseChoice env.IntSize (ReadString input).1 > (profiles.length : Int)
  · rw [promptProfile_invalid env profiles input h]
    simp [profilePrompt, printMenu_no_panic]
  · have h1 : 1 ≤ parseChoice env.IntSize (ReadString input).1 := by omega
    have h2 : parseChoice env.IntSize (ReadString input).1 ≤ (profiles.length : Int) := by omega
    obtain ⟨x, hx⟩ := index_of_range profiles _ h1 h2
    rw [promptProfile_valid env profiles input x h1 h2 hx]
    simp [profilePrompt, printMenu_no_panic, loadAndPrint_no_panic]

theorem chooseProfile_no_panic (env : Env) (browser : String) (input : List Char) :
    Event.indexOutOfRange ∉ chooseProfile env browser input := by
  unfold chooseProfile
  cases hres : (getBrowserProfiles env browser).2 with
  | err m => simp [getBrowserProfiles]
  | ok profiles =>
    by_cases hl : profiles.length = 0
    · simp [getBrowserProfiles, hl]
    · simp [getBrowserProfiles, hl, promptProfile_no_panic]

/-- C10: for every input, a run of `main` never takes the out-of-range branch of
`browsers[choice-1]` or of `profiles[profileChoice-1]`: whenever a scanned choice passes
the range check against a list, `choice-1` lies between 0 and the length minus one and
the indexing yields an element; and a line whose scan fails leaves the value at 0, which
the range check rejects. -/
theorem index_never_out_of_range (env : Env) (stdin : String) :
    Event.indexOutOfRange ∉ main env stdin
    ∧ (∀ (xs : List String) (line : List Char),
        ¬ (parseChoice env.IntSize line < 1 ∨ parseChoice env.IntSize line > (xs.length : Int)) →
        0 ≤ parseChoice env.IntSize line - 1
        ∧ parseChoice env.IntSize line - 1 ≤ (xs.length : Int) - 1
        ∧ ∃ x, index xs (parseChoice env.IntSize line - 1) = some x)
    ∧ (∀ line : List Char, scanInt env.IntSize (TrimSpace (String.mk line)).data = none →
        parseChoice env.IntSize line = 0 ∧ parseChoice env.IntSize line < 1) := by
  refine ⟨?_, ?_, ?_⟩
  · by_cases h : parseChoice env.IntSize (ReadString stdin.data).1 < 1
        ∨ parseChoice env.IntSize (ReadString stdin.data).1 > 3
    · rw [main_invalid env stdin h]
      simp [browserPrompt, printMenu_no_panic]
    · have h1 : 1 ≤ parseChoice env.IntSize (ReadString stdin.data).1 := by omega
      have h3 : parseChoice env.IntSize (ReadString stdin.data).1 ≤ 3 := by omega
      obtain ⟨x, hx⟩ := index_of_range browsers _ h1 (by simpa [browsers] using h3)
      rw [main_valid env stdin x h1 h3 hx]
      simp [browserPrompt, printMenu_no_panic, chooseProfile_no_panic]
  · intro xs line h
    have h1 : 1 ≤ parseChoice env.IntSize line := by omega
    have h2 : parseChoice env.IntSize line ≤ (xs.length : Int) := by omega
    exact ⟨by omega, by omega, index_of_range xs _ h1 h2⟩
  · intro line h
    have h0 : parseChoice env.IntSize line = 0 := by
      unfold parseChoice Sscanf
      rw [h]
      rfl
    exact ⟨h0, by rw [h0]; decide⟩

theorem index_never_out_of_range_witness :
    Event.indexOutOfRange ∉ main sampleEnv "2\n2\n"
    ∧ (0 ≤ parseChoice sampleEnv.IntSize ("2\n" : String).data - 1
        ∧ parseChoice sampleEnv.IntSize ("2\n" : String).data - 1
            ≤ ((["Default", "Profile 1"] : List String).length : Int) - 1
        ∧ ∃ x, index ["Default", "Profile 1"]
            (parseChoice sampleEnv.IntSize ("2\n" : String).data - 1) = some x)
    ∧ (parseChoice sampleEnv.IntSize ("abc\n" : String).data = 0
        ∧ parseChoice sampleEnv.IntSize ("abc\n" : String).data < 1) :=
  ⟨(index_never_out_of_range sampleEnv "2\n2\n").1,
   (index_never_out_of_range sampleEnv "2\n2\n").2.1 ["Default", "Profile 1"]
      ("2\n" : String).data (by decide),
   (index_never_out_of_range sampleEnv "2\n2\n").2.2 ("abc\n" : String).data (by decide)⟩

end NitaiSearch
